import Mathlib

/-!
Verification development for the Proton WebClients monorepo extract.

The repository is a TypeScript/React monorepo; the files under scrutiny are
`packages/components/containers/vpn/WireGuardConfigurationSection/WireGuardConfigurationSection.tsx`,
`packages/shared/lib/logical/logical.tsx`, and
`applications/drive/src/app/store/_downloads/DownloadProvider/DownloadProvider.tsx`
(the latter file also contains the `EmailReminderWidget` component).

The shallow embedding below renders the relevant functions as executable
Lean definitions.  JavaScript numbers that are used as byte values and
unix timestamps become `Nat`/`Int`; `Uint8Array`s become `List Nat`;
functions that `throw` return `Except String _`.  External collaborators
that are not part of the repository (the `@noble/ed25519` curve constants
and `sha512`, base64 helpers, the DOM) are abstracted as parameters.
-/

namespace WireGuard

/-! ### Key generation (`WireGuardConfigurationSection.tsx`)

`bytesToNumberLE` reads a byte array as a little-endian big integer:
`for i: value += BigInt(uint8a[i]) << (8n * i)`.  We recurse over the list
carrying the index `i`. -/

def bytesToNumberLEAux : List Nat → Nat → Nat
  | [], _ => 0
  | b :: rest, i => (b <<< (8 * i)) + bytesToNumberLEAux rest (i + 1)

def bytesToNumberLE (uint8a : List Nat) : Nat :=
  bytesToNumberLEAux uint8a 0

/-- The retry loop of `randomPrivateKey`: `let i = 1024; while (i--) { ... }`
runs the body exactly 1024 times.  `rng j` models the `j`-th call to
`getRandomValues(new Uint8Array(32))`; `n` models `CURVE.n`. -/
def randomPrivateKeyLoop (n : Nat) (rng : Nat → List Nat) : Nat → Nat → Except String (List Nat)
  | 0, _ => .error "Valid private key was not found in 1024 iterations. PRNG is broken"
  | fuel + 1, j =>
    let b32 := rng j
    let num := bytesToNumberLE b32
    if 1 < num ∧ num < n then .ok b32 else randomPrivateKeyLoop n rng fuel (j + 1)

/-- Model of `randomPrivateKey`.  `curve = none` models the case where `CURVE` is
unavailable (`BigInt` not supported); `curve = some n` supplies `CURVE.n`
(the curve module itself is an external import, so its order is a
parameter). -/
def randomPrivateKey (curve : Option Nat) (rng : Nat → List Nat) : Except String (List Nat) :=
  match curve with
  | none => .error "BigInt not supported"
  | some n => randomPrivateKeyLoop n rng 1024 0

/-! ### X25519 clamping (`getX25519PrivateKey`)

The source takes `sha512(base64decode(privateKey)).slice(0, 32)`, then
mutates byte 0 with `&= 0xf8` and byte 31 with `&= 0x7f; |= 0x40`, and
base64-encodes the result.  `sha512`, `base64StringToUint8Array` and
`uint8ArrayToBase64String` are external library imports, abstracted as
function parameters. -/

def clampX25519 (s : List Nat) : List Nat :=
  let s1 := s.set 0 ((s.getD 0 0) &&& 0xf8)
  let s2 := s1.set 31 ((s1.getD 31 0) &&& 0x7f)
  s2.set 31 ((s2.getD 31 0) ||| 0x40)

def getX25519PrivateKey (enc : List Nat → String) (dec : String → List Nat)
    (sha512 : List Nat → List Nat) (privateKey : String) : String :=
  enc (clampX25519 ((sha512 (dec privateKey)).take 32))

/-! ### Lemmas about the key-generation loop -/

theorem randomPrivateKeyLoop_ok (n : Nat) (rng : Nat → List Nat) :
    ∀ fuel j b, randomPrivateKeyLoop n rng fuel j = .ok b →
      (∃ i, b = rng i) ∧ 1 < bytesToNumberLE b ∧ bytesToNumberLE b < n := by
  intro fuel
  induction fuel with
  | zero => intro j b h; simp [randomPrivateKeyLoop] at h
  | succ f ih =>
    intro j b h
    simp only [randomPrivateKeyLoop] at h
    split at h
    · next hc =>
      cases h
      exact ⟨⟨j, rfl⟩, hc.1, hc.2⟩
    · exact ih (j + 1) b h

theorem randomPrivateKeyLoop_fail (n : Nat) (rng : Nat → List Nat) :
    ∀ fuel j,
      (∀ i, i < fuel → ¬(1 < bytesToNumberLE (rng (j + i)) ∧ bytesToNumberLE (rng (j + i)) < n)) →
      randomPrivateKeyLoop n rng fuel j
        = .error "Valid private key was not found in 1024 iterations. PRNG is broken" := by
  intro fuel
  induction fuel with
  | zero => intro j _; rfl
  | succ f ih =>
    intro j h
    simp only [randomPrivateKeyLoop]
    rw [if_neg]
    · refine ih (j + 1) (fun i hi => ?_)
      have h' := h (i + 1) (by omega)
      rw [show j + (i + 1) = j + 1 + i by omega] at h'
      exact h'
    · have h0 := h 0 (Nat.succ_pos f)
      simpa using h0

/-- C1: a successful `randomPrivateKey` call returns a 32-byte array whose
little-endian value lies strictly between 1 and `CURVE.n`; if all 1024
random samples fall outside that open range it throws the PRNG error; and
with `CURVE` unavailable it throws "BigInt not supported" immediately. -/
theorem randomPrivateKey_range_and_errors (n : Nat) (rng : Nat → List Nat)
    (hlen : ∀ j, (rng j).length = 32) :
    (∀ b, randomPrivateKey (some n) rng = .ok b →
        b.length = 32 ∧ 1 < bytesToNumberLE b ∧ bytesToNumberLE b < n) ∧
    ((∀ j, j < 1024 →
        ¬(1 < bytesToNumberLE (rng j) ∧ bytesToNumberLE (rng j) < n)) →
      randomPrivateKey (some n) rng
        = .error "Valid private key was not found in 1024 iterations. PRNG is broken") ∧
    randomPrivateKey none rng = .error "BigInt not supported" := by
  refine ⟨?_, ?_, rfl⟩
  · intro b h
    obtain ⟨⟨i, rfl⟩, h1, h2⟩ := randomPrivateKeyLoop_ok n rng 1024 0 b h
    exact ⟨hlen i, h1, h2⟩
  · intro h
    refine randomPrivateKeyLoop_fail n rng 1024 0 (fun i hi => ?_)
    have := h i hi
    simpa using this

theorem randomPrivateKey_range_and_errors_witness :
    randomPrivateKey (some 10) (fun _ => List.replicate 32 0)
        = .error "Valid private key was not found in 1024 iterations. PRNG is broken" ∧
    randomPrivateKey none (fun _ => List.replicate 32 0) = .error "BigInt not supported" := by
  have h := randomPrivateKey_range_and_errors 10 (fun _ => List.replicate 32 0)
    (fun _ => by simp)
  refine ⟨h.2.1 ?_, h.2.2⟩
  intro j _ hc
  have h0 : bytesToNumberLE (List.replicate 32 0) = 0 := by rfl
  rw [h0] at hc
  exact absurd hc.1 (by decide)

/-! ### Lemmas about clamping -/

theorem getD_set_self : ∀ (l : List Nat) (i a : Nat), i < l.length → (l.set i a).getD i 0 = a := by
  intro l
  induction l with
  | nil => intro i a h; simp at h
  | cons x xs ih =>
    intro i a h
    cases i with
    | zero => rfl
    | succ i =>
      have := ih i a (by simpa using h)
      simpa [List.set, List.getD] using this

theorem getD_set_other : ∀ (l : List Nat) (i j a : Nat), i ≠ j →
    (l.set i a).getD j 0 = l.getD j 0 := by
  intro l
  induction l with
  | nil => intro i j a _; simp [List.set]
  | cons x xs ih =>
    intro i j a hij
    cases i with
    | zero =>
      cases j with
      | zero => exact absurd rfl hij
      | succ j => rfl
    | succ i =>
      cases j with
      | zero => rfl
      | succ j =>
        have := ih i j a (by omega)
        simpa [List.set, List.getD] using this

set_option maxRecDepth 10000 in
theorem land_f8_mod_eight : ∀ x, x < 256 → (x &&& 0xf8) % 8 = 0 := by decide

set_option maxRecDepth 10000 in
theorem clamp_byte31_bounds : ∀ x, x < 256 →
    64 ≤ ((x &&& 0x7f) ||| 0x40) ∧ ((x &&& 0x7f) ||| 0x40) ≤ 127 := by decide

theorem clampX25519_length (s : List Nat) : (clampX25519 s).length = s.length := by
  simp [clampX25519]

theorem clampX25519_getD_zero (s : List Nat) (h : 31 < s.length) :
    (clampX25519 s).getD 0 0 = (s.getD 0 0) &&& 0xf8 := by
  unfold clampX25519
  rw [getD_set_other _ 31 0 _ (by omega), getD_set_other _ 31 0 _ (by omega),
    getD_set_self _ 0 _ (by omega)]

theorem clampX25519_getD_31 (s : List Nat) (h : 31 < s.length) :
    (clampX25519 s).getD 31 0 = ((s.getD 31 0) &&& 0x7f) ||| 0x40 := by
  unfold clampX25519
  rw [getD_set_self _ 31 _ (by simpa using h),
    getD_set_self _ 31 _ (by simpa using h),
    getD_set_other _ 0 31 _ (by omega)]

/-- C2: `getX25519PrivateKey` encodes the first 32 bytes of SHA-512 of the
decoded input, clamped as an X25519 scalar: byte 0 of the clamped array is
divisible by 8 and byte 31 lies in [64, 127]. -/
theorem getX25519PrivateKey_clamped (enc : List Nat → String) (dec : String → List Nat)
    (sha512 : List Nat → List Nat) (pk : String)
    (hlen : 32 ≤ (sha512 (dec pk)).length)
    (hbyte : ∀ b ∈ sha512 (dec pk), b < 256) :
    getX25519PrivateKey enc dec sha512 pk
        = enc (clampX25519 ((sha512 (dec pk)).take 32)) ∧
    (clampX25519 ((sha512 (dec pk)).take 32)).length = 32 ∧
    (clampX25519 ((sha512 (dec pk)).take 32)).getD 0 0 % 8 = 0 ∧
    64 ≤ (clampX25519 ((sha512 (dec pk)).take 32)).getD 31 0 ∧
    (clampX25519 ((sha512 (dec pk)).take 32)).getD 31 0 ≤ 127 := by
  have hslen : ((sha512 (dec pk)).take 32).length = 32 := by
    rw [List.length_take]
    omega
  have hmem : ∀ b ∈ (sha512 (dec pk)).take 32, b < 256 := fun b hb =>
    hbyte b (List.take_subset _ _ hb)
  refine ⟨rfl, ?_⟩
  obtain ⟨s, hs⟩ : ∃ s, (sha512 (dec pk)).take 32 = s := ⟨_, rfl⟩
  rw [hs] at hslen hmem ⊢
  have h0 : s.getD 0 0 < 256 := by
    refine hmem _ ?_
    rw [List.getD_eq_getElem s 0 (by omega)]
    exact List.getElem_mem (by omega)
  have h31 : s.getD 31 0 < 256 := by
    refine hmem _ ?_
    rw [List.getD_eq_getElem s 0 (by omega)]
    exact List.getElem_mem (by omega)
  refine ⟨by rw [clampX25519_length, hslen], ?_, ?_, ?_⟩
  · rw [clampX25519_getD_zero s (by omega)]
    exact land_f8_mod_eight _ h0
  · rw [clampX25519_getD_31 s (by omega)]
    exact (clamp_byte31_bounds _ h31).1
  · rw [clampX25519_getD_31 s (by omega)]
    exact (clamp_byte31_bounds _ h31).2

theorem getX25519PrivateKey_clamped_witness :
    64 ≤ (clampX25519 ((List.replicate 64 1).take 32)).getD 31 0 := by
  have h := getX25519PrivateKey_clamped (fun _ => "") (fun _ => [])
    (fun _ => List.replicate 64 1) "" (by simp) (by
      intro b hb
      rw [List.eq_of_mem_replicate hb]
      decide)
  exact h.2.2.2.1

/-! ### `unarmor` and `getKeyPair`

`unarmor` is `` `\n${key}\n`.replace(/\n---.+\n/g, '').replace(/\s/g, '') ``.
The regex `\n---.+\n` matches a newline, three dashes, at least one
non-newline character (`.` does not match newlines, so the greedy `.+`
stops at the first following newline), and that newline; global
replacement scans left to right and resumes after each match. -/

/-- Scan to and over the first newline (the `\n` terminating `.+\n`). -/
def armorScan : List Char → Option (List Char)
  | [] => none
  | c :: rest => if c = '\n' then some rest else armorScan rest

/-- Match `.+\n`: at least one non-newline character, then up to and over
the first newline. -/
def armorBody : List Char → Option (List Char)
  | [] => none
  | c :: rest => if c = '\n' then none else armorScan rest

/-- Match `---.+\n` at the head of the list (the part of the armor regex
after its leading newline), returning the rest of the input. -/
def armorTail (l : List Char) : Option (List Char) :=
  match l with
  | '-' :: '-' :: '-' :: rest => armorBody rest
  | _ => none

theorem armorScan_length : ∀ l r, armorScan l = some r → r.length < l.length := by
  intro l
  induction l with
  | nil => intro r h; simp [armorScan] at h
  | cons c rest ih =>
    intro r h
    rw [armorScan] at h
    split at h
    · cases h
      simp
    · have := ih r h
      simp only [List.length_cons]
      omega

theorem armorBody_length : ∀ l r, armorBody l = some r → r.length < l.length := by
  intro l r h
  match l with
  | [] => simp [armorBody] at h
  | c :: rest =>
    rw [armorBody] at h
    split at h
    · cases h
    · have := armorScan_length rest r h
      simp only [List.length_cons]
      omega

theorem armorTail_length (l r : List Char) (h : armorTail l = some r) : r.length < l.length := by
  unfold armorTail at h
  split at h
  · have := armorBody_length _ _ h
    simp only [List.length_cons]
    omega
  · cases h

/-- The global replacement `.replace(/\n---.+\n/g, '')`: characters not
starting a match are kept, matched spans are dropped, and scanning resumes
after each match. -/
def stripArmorLines (l : List Char) : List Char :=
  match l with
  | [] => []
  | c :: rest =>
    if c = '\n' then
      match h : armorTail rest with
      | some rem => stripArmorLines rem
      | none => c :: stripArmorLines rest
    else c :: stripArmorLines rest
termination_by l.length
decreasing_by
  · have := armorTail_length rest rem h
    simp only [List.length_cons]
    omega
  · simp only [List.length_cons]
    omega
  · simp only [List.length_cons]
    omega

/-- The characters matched by the JavaScript `\s` class (ASCII part plus
no-break space; the further exotic Unicode spaces never occur in key
material). -/
def isJsWhitespace (ch : Char) : Bool :=
  ch = ' ' || ch = '\t' || ch = '\n' || ch = '\r' || ch = '\x0b' || ch = '\x0c' || ch = ' '

def unarmor (key : String) : String :=
  String.mk ((stripArmorLines ('\n' :: (key.data ++ ['\n']))).filter (fun ch => !isJsWhitespace ch))

/-- The `KeyPair` DTO returned by the `getKey()` API route. -/
structure KeyPair where
  PrivateKey : String
  PublicKey : String
deriving DecidableEq

/-- The `{ privateKey, publicKey }` object returned by `getKeyPair`. -/
structure GeneratedKeyPair where
  privateKey : String
  publicKey : String
deriving DecidableEq

/-- Model of `getKeyPair`: try client-side generation (`randomPrivateKey`, then
base64-encode the private key and the derived public key); on any thrown
error, log to the console and fall back to the server-provided key pair
from the `getKey()` API route, unarmored.  `uint8ArrayToBase64String` is
the parameter `enc` and `getPublicKey` (noble ed25519 point derivation)
is the parameter `pub`; `serverKeyPair` is the API response. -/
def getKeyPair (curve : Option Nat) (rng : Nat → List Nat) (enc : List Nat → String)
    (pub : List Nat → List Nat) (serverKeyPair : KeyPair) : GeneratedKeyPair :=
  match randomPrivateKey curve rng with
  | .ok privateKey => { privateKey := enc privateKey, publicKey := enc (pub privateKey) }
  | .error _ =>
    { privateKey := unarmor serverKeyPair.PrivateKey
      publicKey := unarmor serverKeyPair.PublicKey }

theorem armorTail_eq_none (l : List Char) (h : l.head? ≠ some '-') : armorTail l = none := by
  unfold armorTail
  split
  · simp at h
  · rfl

/-- On inputs containing no dash, the armor-stripping replacement is the
identity (the regex requires three dashes). -/
theorem stripArmorLines_no_dash : ∀ (n : Nat) (l : List Char), l.length ≤ n →
    (∀ c ∈ l, c ≠ '-') → stripArmorLines l = l := by
  intro n
  induction n with
  | zero =>
    intro l hl _
    match l with
    | [] => rw [stripArmorLines]
    | c :: rest => simp at hl
  | succ n ih =>
    intro l hl hd
    match l with
    | [] => rw [stripArmorLines]
    | c :: rest =>
      have hat : armorTail rest = none := by
        refine armorTail_eq_none rest ?_
        match rest with
        | [] => simp
        | d :: r =>
          have := hd d (by simp)
          simp [this]
      have hrec : stripArmorLines rest = rest :=
        ih rest (by simp at hl; omega) (fun d hdm => hd d (List.mem_cons_of_mem _ hdm))
      rw [stripArmorLines]
      by_cases hc : c = '\n'
      · rw [if_pos hc]
        split
        · next rem heq => rw [hat] at heq; cases heq
        · rw [hrec]
      · rw [if_neg hc, hrec]

/-- C3 counterexample: with `CURVE` unavailable, client-side key generation
in `getKeyPair` fails, yet `getKeyPair` still produces a substitute key
pair (the server-side one) with no further user action — the claim that no
substitute key pair is produced is false. -/
theorem getKeyPair_substitutes_on_failure :
    randomPrivateKey none (fun _ => List.replicate 32 0) = .error "BigInt not supported" ∧
    getKeyPair none (fun _ => List.replicate 32 0) (fun _ => "") (fun b => b)
        { PrivateKey := "SERVERPRIV", PublicKey := "SERVERPUB" }
      = { privateKey := "SERVERPRIV", publicKey := "SERVERPUB" } := by
  refine ⟨rfl, ?_⟩
  show GeneratedKeyPair.mk (unarmor "SERVERPRIV") (unarmor "SERVERPUB") = _
  have h1 : unarmor "SERVERPRIV" = "SERVERPRIV" := by
    unfold unarmor
    rw [stripArmorLines_no_dash 12 _ (by decide) (by decide)]
    decide
  have h2 : unarmor "SERVERPUB" = "SERVERPUB" := by
    unfold unarmor
    rw [stripArmorLines_no_dash 11 _ (by decide) (by decide)]
    decide
  rw [h1, h2]

/-- C3 amended: when an operation fails the error is caught, but `getKeyPair`
does recover automatically — on client-side generation failure it falls
back, without user action, to the server-side generated key pair from the
`getKey()` route, returning its unarmored keys; on success it returns the
encoded client-side pair. -/
theorem getKeyPair_fallback (curve : Option Nat) (rng : Nat → List Nat)
    (enc : List Nat → String) (pub : List Nat → List Nat) (sk : KeyPair) :
    (∀ e, randomPrivateKey curve rng = .error e →
      getKeyPair curve rng enc pub sk
        = { privateKey := unarmor sk.PrivateKey, publicKey := unarmor sk.PublicKey }) ∧
    (∀ b, randomPrivateKey curve rng = .ok b →
      getKeyPair curve rng enc pub sk = { privateKey := enc b, publicKey := enc (pub b) }) := by
  constructor <;> intro x h <;> simp [getKeyPair, h]

theorem getKeyPair_fallback_witness :
    getKeyPair none (fun _ => List.replicate 32 0) (fun _ => "") (fun b => b)
        { PrivateKey := "ARMORKEY", PublicKey := "ARMORPUB" }
      = { privateKey := unarmor "ARMORKEY", publicKey := unarmor "ARMORPUB" } :=
  (getKeyPair_fallback none (fun _ => List.replicate 32 0) (fun _ => "") (fun b => b)
    { PrivateKey := "ARMORKEY", PublicKey := "ARMORPUB" }).1 "BigInt not supported" rfl

/-! ### The WireGuard config template (`getConfigTemplate`)

JavaScript `a || b` on strings yields `b` exactly when `a` is falsy
(`undefined`, `null` or the empty string). -/

/-- JavaScript `a || b` where `a` is a possibly-undefined string. -/
def jsOrStr (a : Option String) (b : String) : String :=
  match a with
  | some s => if s = "" then b else s
  | none => b

/-- JavaScript `a || b` on plain strings. -/
def jsOr (a b : String) : String :=
  if a = "" then b else a

inductive PLATFORM where
  | MACOS
  | LINUX
  | WINDOWS
  | ANDROID
  | IOS
  | ROUTER
deriving DecidableEq

structure Peer where
  name : String
  publicKey : String
  ip : String
deriving DecidableEq

/-- The `Partial<FeaturesValues & ExtraCertificateFeatures>` argument of
`getConfigTemplate`.  The comment lines produced by mapping
`formatFeatureShortName`/`formatFeatureValue` over the non-extra feature
keys (helpers from `./feature`, an external module not among the provided
sources) are abstracted as the precomputed `featureLines` string. -/
structure ConfigFeatures where
  featureLines : String
  peerName : Option String
  peerPublicKey : Option String
  peerIp : Option String
  platform : Option PLATFORM
deriving DecidableEq

/-- The expression `features?.platform === PLATFORM.WINDOWS ? '0.0.0.0/1, 128.0.0.0/1' : '0.0.0.0/0'`. -/
def allowedIPs (features : Option ConfigFeatures) : String :=
  if features.bind (fun f => f.platform) = some PLATFORM.WINDOWS then "0.0.0.0/1, 128.0.0.0/1"
  else "0.0.0.0/0"

/-- The `[Interface]` header, device-name comment, feature comment lines
and `PrivateKey` line of the template. -/
def interfaceSection (interfacePrivateKey : String) (name : Option String)
    (features : Option ConfigFeatures) : String :=
  "[Interface]"
    ++ (match name with
        | some n => if n = "" then "" else "\n# Key for " ++ n
        | none => "")
    ++ (match features with
        | some f => f.featureLines
        | none => "")
    ++ "\nPrivateKey = " ++ interfacePrivateKey

/-- The `[Peer]` block of the template. -/
def peerSection (features : Option ConfigFeatures) (peer : Peer) : String :=
  "\n\n[Peer]"
    ++ "\n# " ++ jsOrStr (features.bind (fun f => f.peerName)) peer.name
    ++ "\nPublicKey = " ++ jsOrStr (features.bind (fun f => f.peerPublicKey)) peer.publicKey
    ++ "\nAllowedIPs = " ++ allowedIPs features
    ++ "\nEndpoint = " ++ jsOrStr (features.bind (fun f => f.peerIp)) peer.ip ++ ":51820"

def getConfigTemplate (interfacePrivateKey : String) (name : Option String)
    (features : Option ConfigFeatures) (peer : Peer) : String :=
  interfaceSection interfacePrivateKey name features
    ++ "\nAddress = 10.2.0.2/32"
    ++ "\nDNS = 10.2.0.1"
    ++ peerSection features peer

/-- C9: the generated config's AllowedIPs is `0.0.0.0/1, 128.0.0.0/1`
exactly when the selected platform feature is Windows and `0.0.0.0/0` in
every other case, and the template always carries
`Address = 10.2.0.2/32` and `DNS = 10.2.0.1` between the interface and
peer sections. -/
theorem getConfigTemplate_allowedIPs (pk : String) (name : Option String)
    (features : Option ConfigFeatures) (peer : Peer) :
    (allowedIPs features = "0.0.0.0/1, 128.0.0.0/1"
        ↔ features.bind (fun f => f.platform) = some PLATFORM.WINDOWS) ∧
    (allowedIPs features = "0.0.0.0/0"
        ↔ features.bind (fun f => f.platform) ≠ some PLATFORM.WINDOWS) ∧
    getConfigTemplate pk name features peer
      = interfaceSection pk name features
          ++ "\nAddress = 10.2.0.2/32"
          ++ "\nDNS = 10.2.0.1"
          ++ ("\n\n[Peer]"
              ++ "\n# " ++ jsOrStr (features.bind (fun f => f.peerName)) peer.name
              ++ "\nPublicKey = " ++ jsOrStr (features.bind (fun f => f.peerPublicKey)) peer.publicKey
              ++ "\nAllowedIPs = " ++ allowedIPs features
              ++ "\nEndpoint = " ++ jsOrStr (features.bind (fun f => f.peerIp)) peer.ip ++ ":51820") := by
  have hne : ("0.0.0.0/1, 128.0.0.0/1" : String) ≠ "0.0.0.0/0" := by decide
  refine ⟨?_, ?_, rfl⟩
  · by_cases hw : features.bind (fun f => f.platform) = some PLATFORM.WINDOWS
    · simp [allowedIPs, hw]
    · simp [allowedIPs, hw, hne.symm]
  · by_cases hw : features.bind (fun f => f.platform) = some PLATFORM.WINDOWS
    · simp [allowedIPs, hw, hne]
    · simp [allowedIPs, hw]

/-! ### Certificates -/

/-- The `Certificate` view model built by `getCertificateModel`.  Optional
string fields that the code tests for JavaScript truthiness are plain
strings with `""` playing the falsy role. -/
structure Certificate where
  id : String
  name : Option String
  features : Option ConfigFeatures
  serialNumber : String
  privateKey : String
  publicKey : String
  publicKeyFingerprint : String
  expirationTime : Nat
  config : String
deriving DecidableEq

/-- The `CertificateDTO` shape returned by the certificate API routes. -/
structure CertificateDTO where
  id : Option String
  SerialNumber : String
  ClientKey : String
  ClientKeyFingerprint : String
  ExpirationTime : Nat
  DeviceName : Option String
  Features : Option ConfigFeatures
deriving DecidableEq

def privateKeyPlaceholder : String := "*****"

/-- Model of `getCertificateModel`.  When neither the `id` argument nor
`certificateDto.id` is set the source draws a fresh id
`` `c${Date.now()}-${Math.random()}` ``; that draw is the `freshId`
parameter. -/
def getCertificateModel (certificateDto : CertificateDTO) (peer : Peer)
    (privateKey : Option String) (id : Option String) (freshId : String) : Certificate :=
  let name := certificateDto.DeviceName
  let features := certificateDto.Features
  { id := jsOrStr id (jsOrStr certificateDto.id freshId)
    name := name
    features := features
    serialNumber := certificateDto.SerialNumber
    privateKey := jsOrStr privateKey privateKeyPlaceholder
    publicKey := certificateDto.ClientKey
    publicKeyFingerprint := certificateDto.ClientKeyFingerprint
    expirationTime := certificateDto.ExpirationTime
    config := getConfigTemplate (jsOrStr privateKey privateKeyPlaceholder) name features peer }

/-- The body sent to the `deleteCertificates` API route. -/
inductive CertificateDeletionParams where
  | bySerialNumber (SerialNumber : String)
  | byClientPublicKeyFingerprint (ClientPublicKeyFingerprint : String)
  | byClientPublicKey (ClientPublicKey : String)
deriving DecidableEq

def getDeleteFilter (certificate : Certificate) : CertificateDeletionParams :=
  if certificate.serialNumber ≠ "" then .bySerialNumber certificate.serialNumber
  else if certificate.publicKeyFingerprint ≠ "" then
    .byClientPublicKeyFingerprint certificate.publicKeyFingerprint
  else .byClientPublicKey certificate.publicKey

/-- C6: `getDeleteFilter` picks exactly one identifier, preferring a
non-empty serial number, then a non-empty public-key fingerprint, then the
public key. -/
theorem getDeleteFilter_priority (c : Certificate) :
    (c.serialNumber ≠ "" → getDeleteFilter c = .bySerialNumber c.serialNumber) ∧
    (c.serialNumber = "" → c.publicKeyFingerprint ≠ "" →
      getDeleteFilter c = .byClientPublicKeyFingerprint c.publicKeyFingerprint) ∧
    (c.serialNumber = "" → c.publicKeyFingerprint = "" →
      getDeleteFilter c = .byClientPublicKey c.publicKey) := by
  refine ⟨fun h => ?_, fun h1 h2 => ?_, fun h1 h2 => ?_⟩ <;> simp [getDeleteFilter, *]

theorem getDeleteFilter_priority_witness :
    getDeleteFilter
        { id := "1", name := none, features := none, serialNumber := "SN", privateKey := "p",
          publicKey := "PK", publicKeyFingerprint := "FP", expirationTime := 0, config := "" }
      = .bySerialNumber "SN" :=
  (getDeleteFilter_priority _).1 (by decide)

/-! ### The certificate cache

`certificateCacheRef.current` is a plain record keyed by fingerprint; we
model it as an association list.  JavaScript object-property assignment
overwrites in place (preserving insertion order, which `Object.values`
reads back) and otherwise appends. -/

def alLookup (cache : List (String × Certificate)) (k : String) : Option Certificate :=
  match cache with
  | [] => none
  | (k', v) :: rest => if k' = k then some v else alLookup rest k

def alInsert (cache : List (String × Certificate)) (k : String) (v : Certificate) :
    List (String × Certificate) :=
  match cache with
  | [] => [(k, v)]
  | (k', v') :: rest => if k' = k then (k, v) :: rest else (k', v') :: alInsert rest k v

/-- JavaScript `delete cache[key]`. -/
def alErase (cache : List (String × Certificate)) (k : String) : List (String × Certificate) :=
  match cache with
  | [] => []
  | (k', v') :: rest => if k' = k then rest else (k', v') :: alErase rest k

/-- The expression `certificateCache[fp]?.expirationTime || 0`. -/
def cachedExpiration (cache : List (String × Certificate)) (fp : String) : Nat :=
  match alLookup cache fp with
  | some c => c.expirationTime
  | none => 0

/-- One iteration of either `forEach` loop in `getCertificates`: skip the
certificate when its fingerprint is in `removedCertificates`
(`indexOf !== -1`) or its expiration time is below the cached one,
otherwise store it under its fingerprint.  (In the DTO loop the source
reads the fingerprint and expiration time off the DTO; they coincide
definitionally with the fields of the model built from it.) -/
def insertKeyed (removed : List String) (cache : List (String × Certificate))
    (cert : Certificate) : List (String × Certificate) :=
  if decide (cert.publicKeyFingerprint ∈ removed)
      || decide (cert.expirationTime < cachedExpiration cache cert.publicKeyFingerprint) then
    cache
  else alInsert cache cert.publicKeyFingerprint cert

/-- Model of `getCertificates`: fold the fetched DTOs, then the locally created
certificates, into the cache; return the updated cache and
`Object.values(certificateCache)`.  `fresh` supplies the id draw of
`getCertificateModel` for each DTO. -/
def getCertificates (removed : List String) (certificatesResult : List CertificateDTO)
    (certificates : List Certificate) (peer : Peer) (fresh : CertificateDTO → String)
    (cache : List (String × Certificate)) :
    List (String × Certificate) × List Certificate :=
  let cache1 := certificatesResult.foldl
    (fun cache dto => insertKeyed removed cache (getCertificateModel dto peer none none (fresh dto)))
    cache
  let cache2 := certificates.foldl (fun cache c => insertKeyed removed cache c) cache1
  (cache2, cache2.map Prod.snd)

/-- Every cache entry is keyed by its certificate's fingerprint. -/
def KeyConsistent (cache : List (String × Certificate)) : Prop :=
  ∀ p ∈ cache, p.2.publicKeyFingerprint = p.1

/-- No cache key is a removed fingerprint. -/
def NoRemoved (removed : List String) (cache : List (String × Certificate)) : Prop :=
  ∀ p ∈ cache, p.1 ∉ removed

/-- Per-fingerprint expiration monotonicity between two cache states. -/
def ExpMono (c1 c2 : List (String × Certificate)) : Prop :=
  ∀ fp c, alLookup c1 fp = some c →
    ∃ c', alLookup c2 fp = some c' ∧ c.expirationTime ≤ c'.expirationTime

theorem alLookup_insert_self (cache : List (String × Certificate)) (k : String) (v : Certificate) :
    alLookup (alInsert cache k v) k = some v := by
  induction cache with
  | nil => simp [alInsert, alLookup]
  | cons p rest ih =>
    obtain ⟨k', v'⟩ := p
    by_cases hk : k' = k
    · simp [alInsert, alLookup, hk]
    · simp [alInsert, alLookup, hk, ih]

theorem alLookup_insert_other (cache : List (String × Certificate)) (k k' : String)
    (v : Certificate) (h : k' ≠ k) : alLookup (alInsert cache k v) k' = alLookup cache k' := by
  have hks : k ≠ k' := fun hh => h hh.symm
  induction cache with
  | nil =>
    simp only [alInsert, alLookup]
    rw [if_neg hks]
  | cons p rest ih =>
    obtain ⟨k'', v''⟩ := p
    simp only [alInsert]
    by_cases hk : k'' = k
    · subst hk
      rw [if_pos rfl]
      simp only [alLookup]
      rw [if_neg hks, if_neg hks]
    · rw [if_neg hk]
      simp only [alLookup]
      by_cases hk' : k'' = k'
      · rw [if_pos hk', if_pos hk']
      · rw [if_neg hk', if_neg hk', ih]

theorem mem_alInsert (cache : List (String × Certificate)) (k : String) (v : Certificate)
    (p : String × Certificate) (h : p ∈ alInsert cache k v) : p ∈ cache ∨ p = (k, v) := by
  induction cache with
  | nil => simpa [alInsert] using h
  | cons q rest ih =>
    obtain ⟨k', v'⟩ := q
    by_cases hk : k' = k
    · simp [alInsert, hk] at h
      rcases h with h | h
      · right; simp [h]
      · left; simp [h]
    · simp [alInsert, hk] at h
      rcases h with h | h
      · left; simp [h]
      · rcases ih h with h' | h'
        · left; simp [h']
        · right; exact h'

theorem insertKeyed_keyConsistent (removed : List String) (cache : List (String × Certificate))
    (cert : Certificate) (h : KeyConsistent cache) :
    KeyConsistent (insertKeyed removed cache cert) := by
  unfold insertKeyed
  split
  · exact h
  · intro p hp
    rcases mem_alInsert _ _ _ p hp with h' | h'
    · exact h p h'
    · simp [h']

theorem insertKeyed_noRemoved (removed : List String) (cache : List (String × Certificate))
    (cert : Certificate) (h : NoRemoved removed cache) :
    NoRemoved removed (insertKeyed removed cache cert) := by
  unfold insertKeyed
  split
  · exact h
  · next hcond =>
    intro p hp
    rcases mem_alInsert _ _ _ p hp with h' | h'
    · exact h p h'
    · subst h'
      simp only [Bool.or_eq_true, decide_eq_true_eq] at hcond
      push_neg at hcond
      exact hcond.1

theorem insertKeyed_expMono (removed : List String) (cache : List (String × Certificate))
    (cert : Certificate) : ExpMono cache (insertKeyed removed cache cert) := by
  unfold insertKeyed
  split
  · exact fun fp c hc => ⟨c, hc, le_refl _⟩
  · next hcond =>
    intro fp c hc
    by_cases hfp : fp = cert.publicKeyFingerprint
    · subst hfp
      refine ⟨cert, alLookup_insert_self _ _ _, ?_⟩
      simp only [Bool.or_eq_true, decide_eq_true_eq] at hcond
      push_neg at hcond
      have hle := hcond.2
      have hce : cachedExpiration cache cert.publicKeyFingerprint = c.expirationTime := by
        unfold cachedExpiration
        rw [hc]
      rw [hce] at hle
      omega
    · exact ⟨c, by rw [alLookup_insert_other _ _ _ _ hfp, hc], le_refl _⟩

theorem expMono_trans (c1 c2 c3 : List (String × Certificate))
    (h1 : ExpMono c1 c2) (h2 : ExpMono c2 c3) : ExpMono c1 c3 := by
  intro fp c hc
  obtain ⟨c', hc', hle⟩ := h1 fp c hc
  obtain ⟨c'', hc'', hle'⟩ := h2 fp c' hc'
  exact ⟨c'', hc'', le_trans hle hle'⟩

theorem foldl_insertKeyed_inv {α : Type} (removed : List String) (f : α → Certificate) :
    ∀ (xs : List α) (cache : List (String × Certificate)),
      KeyConsistent cache → NoRemoved removed cache →
      KeyConsistent (xs.foldl (fun c x => insertKeyed removed c (f x)) cache) ∧
      NoRemoved removed (xs.foldl (fun c x => insertKeyed removed c (f x)) cache) ∧
      ExpMono cache (xs.foldl (fun c x => insertKeyed removed c (f x)) cache) := by
  intro xs
  induction xs with
  | nil => exact fun cache hk hr => ⟨hk, hr, fun fp c hc => ⟨c, hc, le_refl _⟩⟩
  | cons x rest ih =>
    intro cache hk hr
    have hk1 := insertKeyed_keyConsistent removed cache (f x) hk
    have hr1 := insertKeyed_noRemoved removed cache (f x) hr
    obtain ⟨hk2, hr2, hm2⟩ := ih (insertKeyed removed cache (f x)) hk1 hr1
    exact ⟨hk2, hr2, expMono_trans _ _ _ (insertKeyed_expMono removed cache (f x)) hm2⟩

/-- C8: under the cache invariants (entries keyed by their certificate's
fingerprint, no removed fingerprint present), `getCertificates` preserves
both invariants, returns no certificate whose fingerprint is in
`removedCertificates`, and only ever overwrites a cached entry with one of
greater-or-equal expiration time (per-fingerprint monotonicity). -/
theorem getCertificates_invariants (removed : List String) (dtos : List CertificateDTO)
    (certs : List Certificate) (peer : Peer) (fresh : CertificateDTO → String)
    (cache : List (String × Certificate))
    (hkey : KeyConsistent cache) (hrem : NoRemoved removed cache) :
    KeyConsistent (getCertificates removed dtos certs peer fresh cache).1 ∧
    NoRemoved removed (getCertificates removed dtos certs peer fresh cache).1 ∧
    (∀ c ∈ (getCertificates removed dtos certs peer fresh cache).2,
      c.publicKeyFingerprint ∉ removed) ∧
    ExpMono cache (getCertificates removed dtos certs peer fresh cache).1 := by
  obtain ⟨hk1, hr1, hm1⟩ :=
    foldl_insertKeyed_inv removed (fun dto => getCertificateModel dto peer none none (fresh dto))
      dtos cache hkey hrem
  obtain ⟨hk2, hr2, hm2⟩ :=
    foldl_insertKeyed_inv removed (fun c => c) certs _ hk1 hr1
  refine ⟨hk2, hr2, ?_, expMono_trans _ _ _ hm1 hm2⟩
  intro c hc
  simp only [getCertificates, List.mem_map] at hc
  obtain ⟨p, hp, rfl⟩ := hc
  rw [hk2 p hp]
  exact hr2 p hp

theorem getCertificates_invariants_witness :
    NoRemoved ["REVOKEDFP"]
      (getCertificates ["REVOKEDFP"]
        [{ id := some "i", SerialNumber := "", ClientKey := "CK", ClientKeyFingerprint := "FP",
           ExpirationTime := 5, DeviceName := none, Features := none }]
        [] { name := "NL#1", publicKey := "PB", ip := "1.2.3.4" } (fun _ => "f") []).1 :=
  (getCertificates_invariants ["REVOKEDFP"] _ [] _ (fun _ => "f") []
    (fun p hp => absurd hp (List.not_mem_nil p))
    (fun p hp => absurd hp (List.not_mem_nil p))).2.1

/-! ### `askForRevocation` (C5)

The component state touched by `askForRevocation`: the certificate cache,
the `removedCertificates` fingerprint list, the `certificates` list, the
`removing` flag map (modelled as the list of keys currently set) and the
stream of notifications raised.  The function is modelled as a state
transition parametrised by whether the user confirmed the modal and by
the `Count` field of the `deleteCertificates` API response. -/

structure Notification where
  ntype : String
  text : String
deriving DecidableEq

structure VpnState where
  certificateCache : List (String × Certificate)
  removedCertificates : List String
  certificates : List Certificate
  removing : List String
  notifications : List Notification
deriving DecidableEq

/-- The expression `certificate.name || certificate.publicKeyFingerprint || certificate.publicKey || ''`. -/
def revocationName (certificate : Certificate) : String :=
  jsOrStr certificate.name (jsOr certificate.publicKeyFingerprint (jsOr certificate.publicKey ""))

/-- The expression `certificate.publicKeyFingerprint || certificate.publicKey || certificate.id`. -/
def removingKey (certificate : Certificate) : String :=
  jsOr certificate.publicKeyFingerprint (jsOr certificate.publicKey certificate.id)

/-- Model of `askForRevocation(certificate)` after the user interaction and API
round-trip.  `confirmed = false` is the modal's `onClose` rejection (the
`catch` aborts the revocation); otherwise `Count` is the deletion count
reported by the API.  The `removing` flag set at entry is removed again by
`end()` (in the `Count = 0` early return and in the `finally`), whose
closure captured the pre-call `removing` map, so the net effect on
`removing` is the removal of the key. -/
def askForRevocation (st : VpnState) (certificate : Certificate) (confirmed : Bool)
    (Count : Nat) : VpnState :=
  let key := removingKey certificate
  let name := revocationName certificate
  if !confirmed then
    { st with removing := st.removing.filter (fun k => k ≠ key) }
  else if Count = 0 then
    { st with
        removing := st.removing.filter (fun k => k ≠ key)
        notifications := st.notifications
          ++ [{ ntype := "warning", text := "Certificate " ++ name ++ " not found or already revoked" }] }
  else
    { st with
        certificateCache := alErase st.certificateCache certificate.publicKeyFingerprint
        removedCertificates := st.removedCertificates ++ [certificate.publicKeyFingerprint]
        certificates := st.certificates.filter (fun c => c.id ≠ certificate.id)
        removing := st.removing.filter (fun k => k ≠ key)
        notifications := st.notifications
          ++ [{ ntype := "success", text := "Certificate " ++ name ++ " revoked" }] }

/-- C5: on a confirmed revocation, a `Count = 0` response leaves the
certificate cache, the removed-fingerprint list and the certificates list
untouched and only raises a warning notification; a nonzero `Count`
deletes the cache entry for the certificate's fingerprint, appends the
fingerprint to `removedCertificates` and filters the certificate out of
the list. -/
theorem askForRevocation_count_behaviour (st : VpnState) (cert : Certificate) :
    ((askForRevocation st cert true 0).certificateCache = st.certificateCache ∧
     (askForRevocation st cert true 0).removedCertificates = st.removedCertificates ∧
     (askForRevocation st cert true 0).certificates = st.certificates ∧
     (askForRevocation st cert true 0).notifications = st.notifications
        ++ [{ ntype := "warning",
              text := "Certificate " ++ revocationName cert ++ " not found or already revoked" }]) ∧
    (∀ k : Nat,
     (askForRevocation st cert true (k + 1)).certificateCache
        = alErase st.certificateCache cert.publicKeyFingerprint ∧
     (askForRevocation st cert true (k + 1)).removedCertificates
        = st.removedCertificates ++ [cert.publicKeyFingerprint] ∧
     (askForRevocation st cert true (k + 1)).certificates
        = st.certificates.filter (fun c => c.id ≠ cert.id) ∧
     (askForRevocation st cert true (k + 1)).notifications = st.notifications
        ++ [{ ntype := "success", text := "Certificate " ++ revocationName cert ++ " revoked" }]) := by
  refine ⟨⟨rfl, rfl, rfl, rfl⟩, fun k => ⟨?_, ?_, ?_, ?_⟩⟩ <;>
    simp [askForRevocation]

end WireGuard

namespace Logical

/-! ### The logical-properties CSS polyfill (`packages/shared/lib/logical/logical.tsx`)

DOM link elements are modelled as records; `resolve` abstracts
`new URL(src, window.location.origin).toString()` and `origin` is
`window.location.origin`.  The source's same-origin test is the string
prefix test `url.startsWith(window.location.origin)` on the resolved URL. -/

def ending : String := ".ltr.css"

def getIsNonEnding (resolve : String → String) (origin : String) (src : String) : Bool :=
  let url := resolve src
  url.startsWith origin && url.endsWith ".css" && !(url.endsWith ending)

/-- A DOM node as far as the polyfill inspects it: `isLinkElement` bundles
`nodeType === 1 && node instanceof HTMLLinkElement && tagName === 'LINK'`. -/
structure DomNode where
  isLinkElement : Bool
  rel : String
  href : String
deriving DecidableEq

/-- Check for a `.css` occurrence at the head of the character list. -/
def isCssAt (s : List Char) : Bool :=
  match s with
  | a :: b :: c :: d :: _ => a = '.' && b = 'c' && c = 's' && d = 's'
  | _ => false

/-- JavaScript `href.replace(/\.css/, '.ltr.css')`: the regex is
non-global, so only the first (leftmost) occurrence of `.css` is
replaced. -/
def replaceFirstCss (s : List Char) : List Char :=
  match s with
  | [] => []
  | c :: rest =>
    if isCssAt (c :: rest) then ending.data ++ (c :: rest).drop 4
    else c :: replaceFirstCss rest

def mutateLinkElement (href : String) : String :=
  String.mk (replaceFirstCss href.data)

/-- The `link[rel=stylesheet]` selector of `queryLocalLinkElements`. -/
def isStylesheetLink (n : DomNode) : Bool :=
  n.isLinkElement && n.rel = "stylesheet"

/-- The initial pass: `queryLocalLinkElements().forEach(mutateLinkElement)`
over the document's link elements. -/
def initialPass (resolve : String → String) (origin : String) (doc : List DomNode) :
    List DomNode :=
  doc.map (fun n =>
    if isStylesheetLink n && getIsNonEnding resolve origin n.href then
      { n with href := mutateLinkElement n.href }
    else n)

def getIsNonEndingLinkElement (resolve : String → String) (origin : String) (n : DomNode) :
    Bool :=
  n.isLinkElement && n.rel = "stylesheet" && getIsNonEnding resolve origin n.href

/-- The MutationObserver callback's treatment of one added node. -/
def observerStep (resolve : String → String) (origin : String) (n : DomNode) : DomNode :=
  if getIsNonEndingLinkElement resolve origin n then { n with href := mutateLinkElement n.href }
  else n

/-- Model of `initLogicalProperties`: when
`CSS.supports('(border-start-start-radius: 1em)')` holds nothing happens;
otherwise the links present at call time get the initial pass and every
node later added under `document.head` (delivered by the observer) goes
through `observerStep`. -/
def initLogicalProperties (supports : Bool) (resolve : String → String) (origin : String)
    (doc : List DomNode) (added : List DomNode) : List DomNode × List DomNode :=
  if supports then (doc, added)
  else (initialPass resolve origin doc, added.map (observerStep resolve origin))

/-! Specification-side description of the replacement, following the
claim's wording "replacing the first occurrence of '.css' in the href
with '.ltr.css'". -/

/-- Index of the first occurrence of `.css`, if any. -/
def firstCssIndex (s : List Char) : Option Nat :=
  match s with
  | [] => none
  | _ :: rest => if isCssAt s then some 0 else (firstCssIndex rest).map (fun i => i + 1)

/-- Modelled from the spec: replace the first occurrence of `.css` (at
index `firstCssIndex`) by `.ltr.css`, leaving everything else unchanged. -/
def specReplaceFirstCss (s : List Char) : List Char :=
  match firstCssIndex s with
  | some i => s.take i ++ ".ltr.css".data ++ s.drop (i + 4)
  | none => s

theorem replaceFirstCss_eq_spec : ∀ s, replaceFirstCss s = specReplaceFirstCss s := by
  intro s
  induction s with
  | nil => rfl
  | cons c rest ih =>
    simp only [replaceFirstCss, specReplaceFirstCss, firstCssIndex]
    by_cases h : isCssAt (c :: rest)
    · rw [if_pos h, if_pos h]
      simp [ending]
    · rw [if_neg h, if_neg h, ih]
      simp only [specReplaceFirstCss]
      cases hfi : firstCssIndex rest with
      | none => simp
      | some i =>
        have hmap : Option.map (fun j => j + 1) (some i) = some (i + 1) := rfl
        rw [hmap]
        show c :: (List.take i rest ++ ".ltr.css".data ++ List.drop (i + 4) rest)
            = List.take (i + 1) (c :: rest) ++ ".ltr.css".data ++ List.drop (i + 1 + 4) (c :: rest)
        rw [List.take_succ_cons, show i + 1 + 4 = (i + 4) + 1 by omega, List.drop_succ_cons]
        simp

/-- C4: with CSS support for logical properties, `initLogicalProperties`
changes no link; without it, every stylesheet link whose resolved URL
passes the origin-prefix test, ends with `.css` and does not end with
`.ltr.css` — both those present and those later added under
`document.head` — has the first occurrence of `.css` in its href replaced
by `.ltr.css`, and every other node is untouched. -/
theorem initLogicalProperties_spec (resolve : String → String) (origin : String)
    (doc added : List DomNode) :
    initLogicalProperties true resolve origin doc added = (doc, added) ∧
    initLogicalProperties false resolve origin doc added
      = (doc.map (fun n =>
            if isStylesheetLink n && getIsNonEnding resolve origin n.href then
              { n with href := String.mk (specReplaceFirstCss n.href.data) }
            else n),
         added.map (fun n =>
            if getIsNonEndingLinkElement resolve origin n then
              { n with href := String.mk (specReplaceFirstCss n.href.data) }
            else n)) := by
  refine ⟨rfl, ?_⟩
  simp [initLogicalProperties, initialPass, observerStep, mutateLinkElement,
    replaceFirstCss_eq_spec]

end Logical

namespace Drive

/-! ### `DownloadProvider.tsx`

`DownloadContext` is created with default value `null`; the provider
supplies a `DownloadProviderState` object (always truthy).  The state type
is abstracted as a type parameter since its fields are functions of the
surrounding hook. -/

/-- Model of `useDownloadProvider`: read the context; `null` (no provider
above) throws, otherwise the provider state is returned as is. -/
def useDownloadProvider {α : Type} (contextValue : Option α) : Except String α :=
  match contextValue with
  | none => .error "Trying to use uninitialized DownloadProvider"
  | some state => .ok state

/-- C10: `useDownloadProvider` throws "Trying to use uninitialized
DownloadProvider" exactly when no `DownloadContext` value is provided, and
returns the provider state unmodified whenever one is. -/
theorem useDownloadProvider_spec {α : Type} :
    useDownloadProvider (none : Option α) = .error "Trying to use uninitialized DownloadProvider" ∧
    (∀ state : α, useDownloadProvider (some state) = .ok state) ∧
    (∀ contextValue : Option α,
      (∃ e, useDownloadProvider contextValue = .error e) ↔ contextValue = none) := by
  refine ⟨rfl, fun state => rfl, fun contextValue => ?_⟩
  cases contextValue with
  | none => simp [useDownloadProvider]
  | some state => simp [useDownloadProvider]

end Drive

namespace EmailReminder

/-! ### `EmailReminderWidget` (packaged with `DownloadProvider.tsx`)

The widget fetches the reminded event, checks the occurrence against the
event's recurrence data and renders either the event details or an error
banner.  External library calls are abstracted: `untilUnix` stands for
`getUnixTime(toUTCDate(until))` applied to the rrule's `until` value, and
`occurrencesLen` for `getOccurrencesBetween(vevent, t, t).length`;
`decryptionOk` records whether `getCalendarEventRaw` succeeded. -/

def EVENT_NOT_FOUND_ERROR : String := "EVENT_NOT_FOUND"

def DECRYPTION_ERROR : String := "DECRYPTION_ERROR"

structure CalendarEventDTO where
  CalendarID : String
  Exdates : List Int
  RecurrenceID : Option Int
deriving DecidableEq

/-- The `events` local of `fetchEvent`:
`sameCalendarEvents.length ? sameCalendarEvents : allEventsByUID`. -/
def eventsForCalendar (allEventsByUID : List CalendarEventDTO) (calendarIdHeader : String) :
    List CalendarEventDTO :=
  let sameCalendarEvents := allEventsByUID.filter (fun e => decide (e.CalendarID = calendarIdHeader))
  if sameCalendarEvents.isEmpty then allEventsByUID else sameCalendarEvents

/-- The by-UID branch of `fetchEvent`: throw when nothing was fetched or
when some event excludes the occurrence (`Exdates.includes(occurrence)`);
otherwise prefer the event whose `RecurrenceID` strictly equals the
occurrence, then the first event with falsy `RecurrenceID` (the base
event; `!RecurrenceID` also holds for a zero timestamp), then the first
event. -/
def fetchEventByUID (allEventsByUID : List CalendarEventDTO) (calendarIdHeader : String)
    (occurrence : Int) : Except String CalendarEventDTO :=
  if allEventsByUID.isEmpty then .error EVENT_NOT_FOUND_ERROR
  else
    let events := eventsForCalendar allEventsByUID calendarIdHeader
    if events.any (fun e => decide (occurrence ∈ e.Exdates)) then .error EVENT_NOT_FOUND_ERROR
    else
      match events.find? (fun e => decide (e.RecurrenceID = some occurrence)) with
      | some currentEvent => .ok currentEvent
      | none =>
        match (events.filter (fun e => decide (e.RecurrenceID.getD 0 = 0))).head? with
        | some baseEvent => .ok baseEvent
        | none =>
          match events.head? with
          | some e => .ok e
          | none => .error EVENT_NOT_FOUND_ERROR

/-- The recurrence data read off the decrypted `veventComponent.rrule`. -/
structure RRuleInfo where
  untilUnix : Option Int
  count : Option Nat
deriving DecidableEq

/-- The test `until ? occurrence > getUnixTime(toUTCDate(until)) : false`. -/
def isUntilExpired (rrule : Option RRuleInfo) (occurrence : Int) : Bool :=
  match rrule.bind (fun r => r.untilUnix) with
  | some u => decide (occurrence > u)
  | none => false

/-- The test
`count !== undefined ? !getOccurrencesBetween(...).length : false`. -/
def isCountExpired (rrule : Option RRuleInfo) (occurrencesLen : Nat) : Bool :=
  match rrule.bind (fun r => r.count) with
  | some _ => decide (occurrencesLen = 0)
  | none => false

/-- The try-block of the widget effect after the calendar lookup: fetch
the event, decrypt it, then throw `EVENT_NOT_FOUND_ERROR` when the
occurrence is past `until` or a count-bounded rule yields no occurrence
at that time. -/
def fetchAndCheck (allEventsByUID : List CalendarEventDTO) (calendarIdHeader : String)
    (occurrence : Int) (decryptionOk : Bool) (rrule : Option RRuleInfo)
    (occurrencesLen : Nat) : Except String CalendarEventDTO :=
  match fetchEventByUID allEventsByUID calendarIdHeader occurrence with
  | .error e => .error e
  | .ok ev =>
    if !decryptionOk then .error DECRYPTION_ERROR
    else if isUntilExpired rrule occurrence || isCountExpired rrule occurrencesLen then
      .error EVENT_NOT_FOUND_ERROR
    else .ok ev

/-- What the widget renders. -/
inductive WidgetRender where
  | notFoundBanner (text : String)
  | decryptionActionBanner
  | decryptionBanner
  | notificationError (text : String)
  | eventDetails (ev : CalendarEventDTO)
deriving DecidableEq

/-- The catch-block: decryption failures (when calendar data was loaded)
get the decryption banners, `EVENT_NOT_FOUND_ERROR` gets the
"Event is no longer in your calendar" banner, anything else an error
notification. -/
def renderCatch (calendarDataPresent needsUserAction : Bool) (msg : String) : WidgetRender :=
  if calendarDataPresent && decide (msg = DECRYPTION_ERROR) then
    if needsUserAction then .decryptionActionBanner else .decryptionBanner
  else if msg = EVENT_NOT_FOUND_ERROR then .notFoundBanner "Event is no longer in your calendar"
  else .notificationError msg

/-- The effect's overall outcome. -/
def emailReminderWidget (allEventsByUID : List CalendarEventDTO) (calendarIdHeader : String)
    (occurrence : Int) (decryptionOk : Bool) (rrule : Option RRuleInfo)
    (occurrencesLen : Nat) (calendarDataPresent needsUserAction : Bool) : WidgetRender :=
  match fetchAndCheck allEventsByUID calendarIdHeader occurrence decryptionOk rrule
      occurrencesLen with
  | .ok ev => .eventDetails ev
  | .error e => renderCatch calendarDataPresent needsUserAction e

theorem fetchEventByUID_error_eq (allEventsByUID : List CalendarEventDTO)
    (calendarIdHeader : String) (occurrence : Int) (e : String)
    (h : fetchEventByUID allEventsByUID calendarIdHeader occurrence = .error e) :
    e = EVENT_NOT_FOUND_ERROR := by
  rw [fetchEventByUID] at h
  simp only [] at h
  split at h
  · cases h
    rfl
  · split at h
    · cases h
      rfl
    · split at h
      · cases h
      · split at h
        · cases h
        · split at h
          · cases h
          · cases h
            rfl

theorem renderCatch_not_found (calendarDataPresent needsUserAction : Bool) :
    renderCatch calendarDataPresent needsUserAction EVENT_NOT_FOUND_ERROR
      = .notFoundBanner "Event is no longer in your calendar" := by
  simp [renderCatch, EVENT_NOT_FOUND_ERROR, DECRYPTION_ERROR]

/-- C7: when the events fetched by UID list the reminder's occurrence among
some event's Exdates, or the occurrence lies past the rule's `until`
date, or a count-bounded rule yields no occurrence at that time, the
widget renders the "Event is no longer in your calendar" banner instead of
the event details. -/
theorem emailReminderWidget_event_not_found (allEventsByUID : List CalendarEventDTO)
    (calendarIdHeader : String) (occurrence : Int) (rrule : Option RRuleInfo)
    (occurrencesLen : Nat) (calendarDataPresent needsUserAction : Bool) :
    ((∃ ev ∈ eventsForCalendar allEventsByUID calendarIdHeader, occurrence ∈ ev.Exdates) →
      ∀ decryptionOk,
        emailReminderWidget allEventsByUID calendarIdHeader occurrence decryptionOk rrule
            occurrencesLen calendarDataPresent needsUserAction
          = .notFoundBanner "Event is no longer in your calendar") ∧
    (∀ r u, rrule = some r → r.untilUnix = some u → occurrence > u →
      emailReminderWidget allEventsByUID calendarIdHeader occurrence true rrule
          occurrencesLen calendarDataPresent needsUserAction
        = .notFoundBanner "Event is no longer in your calendar") ∧
    (∀ r n, rrule = some r → r.count = some n → occurrencesLen = 0 →
      emailReminderWidget allEventsByUID calendarIdHeader occurrence true rrule
          occurrencesLen calendarDataPresent needsUserAction
        = .notFoundBanner "Event is no longer in your calendar") := by
  refine ⟨?_, ?_, ?_⟩
  · rintro ⟨ev, hev, hocc⟩ decryptionOk
    have hne : ¬allEventsByUID.isEmpty = true := by
      intro hnil
      rw [List.isEmpty_iff] at hnil
      subst hnil
      simp [eventsForCalendar] at hev
    have hany : (eventsForCalendar allEventsByUID calendarIdHeader).any
        (fun e => decide (occurrence ∈ e.Exdates)) = true :=
      List.any_eq_true.mpr ⟨ev, hev, by simpa using hocc⟩
    have hfetch : fetchEventByUID allEventsByUID calendarIdHeader occurrence
        = .error EVENT_NOT_FOUND_ERROR := by
      rw [fetchEventByUID, if_neg hne]
      simp only []
      rw [if_pos hany]
    simp [emailReminderWidget, fetchAndCheck, hfetch, renderCatch_not_found]
  · intro r u hr hu hgt
    cases hf : fetchEventByUID allEventsByUID calendarIdHeader occurrence with
    | error e =>
      have he := fetchEventByUID_error_eq _ _ _ _ hf
      subst he
      simp [emailReminderWidget, fetchAndCheck, hf, renderCatch_not_found]
    | ok ev =>
      have hunt : isUntilExpired rrule occurrence = true := by
        simp [isUntilExpired, hr, hu, hgt]
      simp [emailReminderWidget, fetchAndCheck, hf, hunt, renderCatch_not_found]
  · intro r n hr hc hlen
    cases hf : fetchEventByUID allEventsByUID calendarIdHeader occurrence with
    | error e =>
      have he := fetchEventByUID_error_eq _ _ _ _ hf
      subst he
      simp [emailReminderWidget, fetchAndCheck, hf, renderCatch_not_found]
    | ok ev =>
      have hcnt : isCountExpired rrule occurrencesLen = true := by
        simp [isCountExpired, hr, hc, hlen]
      simp [emailReminderWidget, fetchAndCheck, hf, hcnt, renderCatch_not_found]

theorem emailReminderWidget_event_not_found_witness :
    emailReminderWidget [{ CalendarID := "cal", Exdates := [5], RecurrenceID := none }] "cal" 5
        true none 0 false false
      = .notFoundBanner "Event is no longer in your calendar" :=
  (emailReminderWidget_event_not_found
      [{ CalendarID := "cal", Exdates := [5], RecurrenceID := none }] "cal" 5 none 0
      false false).1
    ⟨{ CalendarID := "cal", Exdates := [5], RecurrenceID := none }, by decide, by decide⟩ true

end EmailReminder
